import Mathlib

/-!
Connection-scoped metadata of the wire server (`conn.go`).

A shallow embedding of `conn.go` of package `wire`: the four private context
keys, the typed setters `setTypeInfo`, `setRemoteAddress`,
`setClientParameters`, `setServerParameters` and the typed getters `TypeMap`,
`RemoteAddress`, `ClientParameters`, `ServerParameters`.

The Go types `pgtype.Map` and `net.Addr` are declared outside the package and
are opaque to it; they are taken as the type parameters `TM` (the objects a
non-nil `*pgtype.Map` can point to) and `Addr` (the non-nil values of the
interface `net.Addr`).  A `*pgtype.Map` is then an `Option TM` and a
`net.Addr` an `Option Addr`, `none` being Go's `nil`.
-/

namespace Wire

/-! ## Keys -/

/-- The defined type `ctxKey` of `conn.go` (`type ctxKey int`). -/
structure ctxKey where
  n : Int
deriving DecidableEq, Repr

/-- Constant `ctxTypeMap ctxKey = iota`, the first of the block: 0. -/
def ctxTypeMap : ctxKey := ⟨0⟩

/-- Constant `ctxClientMetadata`, second of the iota block: 1. -/
def ctxClientMetadata : ctxKey := ⟨1⟩

/-- Constant `ctxServerMetadata`, third of the iota block: 2. -/
def ctxServerMetadata : ctxKey := ⟨2⟩

/-- Constant `ctxRemoteAddr`, fourth of the iota block: 3. -/
def ctxRemoteAddr : ctxKey := ⟨3⟩

/-- A key as the context carrier sees it: a non-nil comparable value of type
`any`.  Two keys are equal when their dynamic types and their values are
equal, so a `ctxKey` never equals a plain `int` of the same number. -/
inductive Key where
  | ofCtxKey (k : ctxKey)
  | ofInt (n : Int)
  | ofString (s : String)
  | ofOther (typ : String) (id : Nat)
deriving DecidableEq, Repr

/-! ## Parameters -/

/-- The defined type `ParameterStatus` of `conn.go` (`type ParameterStatus string`). -/
abbrev ParameterStatus := String

/-- The defined type `Parameters` of `conn.go` (`map[ParameterStatus]string`):
`none` is the nil map, `some m` a map with unique keys (possibly no entry at
all).  No function of `conn.go` writes to a map, so a map is represented by
its content. -/
abbrev Parameters := Option (AList (fun _ : ParameterStatus => String))

/-- Go's `len(p)`: the number of entries, 0 for the nil map. -/
def Parameters.len : Parameters → Nat
  | none => 0
  | some m => m.entries.length

/-- Go's `v, ok := p[k]`, as an optional value: `none` when `k` has no entry
(always so on the nil map). -/
def Parameters.lookup (p : Parameters) (k : ParameterStatus) : Option String :=
  match p with
  | none => none
  | some m => m.lookup k

/-- Go's `p[k]`: the value under `k`, the zero value `""` when there is none. -/
def Parameters.get (p : Parameters) (k : ParameterStatus) : String :=
  (Parameters.lookup p k).getD ""

/-- Constant `ParamServerEncoding` of `conn.go`. -/
def ParamServerEncoding : ParameterStatus := "server_encoding"

/-- Constant `ParamClientEncoding` of `conn.go`. -/
def ParamClientEncoding : ParameterStatus := "client_encoding"

/-- Constant `ParamIsSuperuser` of `conn.go`. -/
def ParamIsSuperuser : ParameterStatus := "is_superuser"

/-- Constant `ParamSessionAuthorization` of `conn.go`. -/
def ParamSessionAuthorization : ParameterStatus := "session_authorization"

/-- Constant `ParamApplicationName` of `conn.go`. -/
def ParamApplicationName : ParameterStatus := "application_name"

/-- Constant `ParamDatabase` of `conn.go`. -/
def ParamDatabase : ParameterStatus := "database"

/-- Constant `ParamUsername` of `conn.go`. -/
def ParamUsername : ParameterStatus := "user"

/-- Constant `ParamServerVersion` of `conn.go`. -/
def ParamServerVersion : ParameterStatus := "server_version"

/-- The eight recognized status constants, in the order of the source. -/
def recognizedParams : List ParameterStatus :=
  [ParamServerEncoding, ParamClientEncoding, ParamIsSuperuser, ParamSessionAuthorization,
   ParamApplicationName, ParamDatabase, ParamUsername, ParamServerVersion]

/-- Go's `p[k] = v` on a non-nil map: the entry under `k` is replaced or
added, the other entries stay. -/
def Parameters.set (p : AList (fun _ : ParameterStatus => String)) (k : ParameterStatus)
    (v : String) : AList (fun _ : ParameterStatus => String) :=
  p.insert k v

/-- The map made by `Parameters{}` followed by `p[k] = k` for each of the eight
recognized constants in turn: every tag stored with its own name as value. -/
def allRecognized : Parameters :=
  some (recognizedParams.foldl (fun m k => Parameters.set m k k) ∅)

/-! ## Values of type `any` -/

/-- A value of the interface type `any` as stored in a context: the nil
interface, or a dynamic type together with a value of it.  The dynamic types
told apart are the ones the getters of `conn.go` assert: `*pgtype.Map` (the
pointer may be nil), the types implementing `net.Addr`, `Parameters` (the map
may be nil), and every other type. -/
inductive Any (TM Addr : Type) where
  | nil
  | pgtypeMap (p : Option TM)
  | netAddr (a : Addr)
  | parameters (p : Parameters)
  | other (typ : String) (id : Nat)

variable {TM Addr : Type}

/-- Go's `val == nil` on an interface value: true for the nil interface only
(a nil pointer or nil map inside an interface is not the nil interface). -/
def Any.isNil : Any TM Addr → Bool
  | .nil => true
  | _ => false

/-- Conversion of a `net.Addr` to `any`: interface to interface, the nil
interface stays nil and a non-nil one keeps its dynamic type and value. -/
def Any.ofAddr : Option Addr → Any TM Addr
  | none => .nil
  | some a => .netAddr a

/-- A run-time panic of a failed type assertion (`interface conversion`). -/
inductive Panic where
  | interfaceConversion (want : String)
deriving DecidableEq, Repr

/-- The type assertion `val.(*pgtype.Map)`. -/
def Any.assertPgtypeMap : Any TM Addr → Except Panic (Option TM)
  | .pgtypeMap p => .ok p
  | _ => .error (.interfaceConversion "*pgtype.Map")

/-- The type assertion `val.(net.Addr)`, to an interface type: it holds for
every non-nil value whose dynamic type implements `net.Addr`. -/
def Any.assertNetAddr : Any TM Addr → Except Panic (Option Addr)
  | .netAddr a => .ok (some a)
  | _ => .error (.interfaceConversion "net.Addr")

/-- The type assertion `val.(Parameters)`. -/
def Any.assertParameters : Any TM Addr → Except Panic Parameters
  | .parameters p => .ok p
  | _ => .error (.interfaceConversion "wire.Parameters")

/-! ## The context carrier -/

/-- Modelled from the spec: the scoped context carrier (`context.Context` of
the Go standard library, which the package imports and does not define).  A
context is a non-nil value of the interface.  It is either a node made by
`context.WithValue` ("an immutable node pairing a parent context, one scope
key, and one opaque value"), or any other implementation of the interface,
given by what its four methods return: `Deadline`, the identity of the `Done`
channel, `Err` at each instant of an abstract clock, and `Value`. -/
inductive Context (TM Addr : Type) where
  | impl (Deadline : Option Nat) (Done : Option Nat) (Err : Nat → Option String)
      (Value : Key → Any TM Addr)
  | valueCtx (parent : Context TM Addr) (key : Key) (val : Any TM Addr)

/-- Modelled from the spec: the empty base context (`context.Background()`):
no deadline, a nil `Done` channel, never an error, no value under any key. -/
def Background : Context TM Addr :=
  .impl none none (fun _ => none) (fun _ => .nil)

/-- Modelled from the spec: `context.WithValue(parent, key, val)` derives a new
node and leaves the parent as it is. -/
def WithValue (parent : Context TM Addr) (key : Key) (val : Any TM Addr) : Context TM Addr :=
  .valueCtx parent key val

/-- Modelled from the spec: the method `Value` walks the chain for the key,
nearest node first, and falls back on the base context. -/
def Context.Value : Context TM Addr → Key → Any TM Addr
  | .impl _ _ _ f, k => f k
  | .valueCtx parent key val, k => if key = k then val else parent.Value k

/-- Modelled from the spec: a value node has no `Done` channel of its own, it
hands out its parent's. -/
def Context.Done : Context TM Addr → Option Nat
  | .impl _ d _ _ => d
  | .valueCtx parent _ _ => parent.Done

/-- Modelled from the spec: a value node reports its parent's `Err`. -/
def Context.Err : Context TM Addr → Nat → Option String
  | .impl _ _ e _ => e
  | .valueCtx parent _ _ => parent.Err

/-- Modelled from the spec: a value node reports its parent's `Deadline`. -/
def Context.Deadline : Context TM Addr → Option Nat
  | .impl dl _ _ _ => dl
  | .valueCtx parent _ _ => parent.Deadline

/-! ## The typed setters and getters of `conn.go` -/

/-- Function `setTypeInfo` of `conn.go`: the pointer, nil or not, is stored
under `ctxTypeMap`. -/
def setTypeInfo (ctx : Context TM Addr) (info : Option TM) : Context TM Addr :=
  WithValue ctx (.ofCtxKey ctxTypeMap) (.pgtypeMap info)

/-- Function `TypeMap` of `conn.go`. -/
def TypeMap (ctx : Context TM Addr) : Except Panic (Option TM) :=
  let val := ctx.Value (.ofCtxKey ctxTypeMap)
  if val.isNil then .ok none
  else val.assertPgtypeMap

/-- Function `setRemoteAddress` of `conn.go`. -/
def setRemoteAddress (ctx : Context TM Addr) (addr : Option Addr) : Context TM Addr :=
  WithValue ctx (.ofCtxKey ctxRemoteAddr) (Any.ofAddr addr)

/-- Function `RemoteAddress` of `conn.go`. -/
def RemoteAddress (ctx : Context TM Addr) : Except Panic (Option Addr) :=
  let val := ctx.Value (.ofCtxKey ctxRemoteAddr)
  if val.isNil then .ok none
  else val.assertNetAddr

/-- Function `setClientParameters` of `conn.go`: only the nil map is skipped. -/
def setClientParameters (ctx : Context TM Addr) (params : Parameters) : Context TM Addr :=
  if params = none then ctx
  else WithValue ctx (.ofCtxKey ctxClientMetadata) (.parameters params)

/-- Function `ClientParameters` of `conn.go`. -/
def ClientParameters (ctx : Context TM Addr) : Except Panic Parameters :=
  let val := ctx.Value (.ofCtxKey ctxClientMetadata)
  if val.isNil then .ok none
  else val.assertParameters

/-- Function `setServerParameters` of `conn.go`: only the nil map is skipped. -/
def setServerParameters (ctx : Context TM Addr) (params : Parameters) : Context TM Addr :=
  if params = none then ctx
  else WithValue ctx (.ofCtxKey ctxServerMetadata) (.parameters params)

/-- Function `ServerParameters` of `conn.go`. -/
def ServerParameters (ctx : Context TM Addr) : Except Panic Parameters :=
  let val := ctx.Value (.ofCtxKey ctxServerMetadata)
  if val.isNil then .ok none
  else val.assertParameters

/-! ## Sample values -/

/-- A TCP endpoint, standing for the address values of the transport layer. -/
structure TCPAddr where
  IP : List Nat
  Port : Nat
deriving DecidableEq, Repr

/-- The endpoint `198.51.100.7:54321`. -/
def sampleAddr : TCPAddr := ⟨[198, 51, 100, 7], 54321⟩

/-- The map `{server_version: "15.2", server_encoding: "UTF8"}`. -/
def sampleServerParams : Parameters :=
  some ((AList.singleton "server_encoding" "UTF8").insert "server_version" "15.2")

/-- A map with one key that is not a recognized status tag. -/
def sampleUnrecognized : Parameters :=
  some (AList.singleton "x_custom_tag" "1")

/-- The client map `{application_name: "psql", database: "shop"}`. -/
def sampleClientOld : Parameters :=
  some ((AList.singleton "database" "shop").insert "application_name" "psql")

/-- The client map `{application_name: "pgcli"}`. -/
def sampleClientNew : Parameters :=
  some (AList.singleton "application_name" "pgcli")

/-- The empty map that is not nil (`Parameters{}`). -/
def emptyParams : Parameters := some ∅

/-! ## Derivations by the setters -/

/-- The four kinds of metadata the package attaches. -/
inductive Kind where
  | typeMap
  | remoteAddr
  | clientParameters
  | serverParameters
deriving DecidableEq, Repr

/-- One call of a setter of `conn.go`, with its argument. -/
inductive Setter (TM Addr : Type) where
  | typeInfo (info : Option TM)
  | remoteAddress (addr : Option Addr)
  | clientParameters (params : Parameters)
  | serverParameters (params : Parameters)

/-- The kind of metadata a setter call is about. -/
def Setter.kind : Setter TM Addr → Kind
  | .typeInfo _ => .typeMap
  | .remoteAddress _ => .remoteAddr
  | .clientParameters _ => .clientParameters
  | .serverParameters _ => .serverParameters

/-- The private key under which the setters of a kind attach. -/
def Kind.key : Kind → ctxKey
  | .typeMap => ctxTypeMap
  | .remoteAddr => ctxRemoteAddr
  | .clientParameters => ctxClientMetadata
  | .serverParameters => ctxServerMetadata

/-- Runs one setter call on a context. -/
def Setter.apply (ctx : Context TM Addr) : Setter TM Addr → Context TM Addr
  | .typeInfo info => setTypeInfo ctx info
  | .remoteAddress addr => setRemoteAddress ctx addr
  | .clientParameters params => setClientParameters ctx params
  | .serverParameters params => setServerParameters ctx params

/-- The context derived from `base` by a finite sequence of setter calls, the
first call of the list applied first. -/
def derive (base : Context TM Addr) (calls : List (Setter TM Addr)) : Context TM Addr :=
  calls.foldl Setter.apply base

/-- Nothing was ever attached under key `k`: no node of the chain carries `k`
and the base context has no value under it. -/
def Context.neverAttached (k : Key) : Context TM Addr → Bool
  | .impl _ _ _ f => (f k).isNil
  | .valueCtx parent key _ => decide (key ≠ k) && parent.neverAttached k

/-- The number of value nodes of the chain above the base context. -/
def Context.depth : Context TM Addr → Nat
  | .impl _ _ _ _ => 0
  | .valueCtx parent _ _ => parent.depth + 1

/-- The value is the nil interface or has the dynamic type that the getter of
the kind asserts: `*pgtype.Map`, a type implementing `net.Addr`, `Parameters`. -/
def Any.fits : Kind → Any TM Addr → Bool
  | _, .nil => true
  | .typeMap, .pgtypeMap _ => true
  | .remoteAddr, .netAddr _ => true
  | .clientParameters, .parameters _ => true
  | .serverParameters, .parameters _ => true
  | _, _ => false

/-- The value found under each of the four private keys fits its kind. -/
def Context.wellTyped (ctx : Context TM Addr) : Bool :=
  (ctx.Value (.ofCtxKey ctxTypeMap)).fits .typeMap
  && (ctx.Value (.ofCtxKey ctxRemoteAddr)).fits .remoteAddr
  && (ctx.Value (.ofCtxKey ctxClientMetadata)).fits .clientParameters
  && (ctx.Value (.ofCtxKey ctxServerMetadata)).fits .serverParameters

/-- Reference definition, in the words of the spec: the argument of the most
recent `setClientParameters` call of the sequence whose argument was non-nil,
nil when there is no such call. -/
def nearestClientParameters (calls : List (Setter TM Addr)) : Parameters :=
  calls.reverse.findSome? fun s =>
    match s with
    | .clientParameters (some m) => some m
    | _ => none

/-- Reference definition, in the words of the spec: the argument of the most
recent `setServerParameters` call of the sequence whose argument was non-nil,
nil when there is no such call. -/
def nearestServerParameters (calls : List (Setter TM Addr)) : Parameters :=
  calls.reverse.findSome? fun s =>
    match s with
    | .serverParameters (some m) => some m
    | _ => none

/-! ## Contexts as objects of a store

In Go a context is a reference to an object; `context.WithValue` allocates a
new object that points to its parent.  The store below makes the objects and
the allocation explicit, so that what an older reference shows can be compared
before and after a derivation. -/

/-- Modelled from the spec: a context object of the store ("an immutable node
pairing a parent context, one scope key, and one opaque value"), the parent
being a reference into the store; or an object of any other implementation. -/
inductive Obj (TM Addr : Type) where
  | impl (Deadline : Option Nat) (Done : Option Nat) (Err : Nat → Option String)
      (Value : Key → Any TM Addr)
  | valueCtx (parent : Nat) (key : Key) (val : Any TM Addr)

/-- The store of context objects; a reference is a position in it. -/
abbrev Store (TM Addr : Type) := List (Obj TM Addr)

/-- Every value node of the store points to an object allocated before it. -/
def Store.wf (h : Store TM Addr) : Bool :=
  (List.range h.length).all fun i =>
    match h[i]? with
    | some (.valueCtx parent _ _) => decide (parent < i)
    | _ => true

/-- The context a reference stands for, following at most `fuel` objects. -/
def Store.loadAux (h : Store TM Addr) : Nat → Nat → Context TM Addr
  | 0, _ => Background
  | fuel + 1, ref =>
    match h[ref]? with
    | none => Background
    | some (.impl dl d e f) => .impl dl d e f
    | some (.valueCtx parent key val) => .valueCtx (Store.loadAux h fuel parent) key val

/-- The context a reference stands for: the chain of objects from `ref` down
to its base.  With parents allocated first, `ref + 1` steps reach the base. -/
def Store.load (h : Store TM Addr) (ref : Nat) : Context TM Addr :=
  Store.loadAux h (ref + 1) ref

/-- Modelled from the spec: `context.WithValue` on the store: one new object
is appended, no object is written, and the new reference is returned. -/
def Store.WithValue (h : Store TM Addr) (parent : Nat) (key : Key) (val : Any TM Addr) :
    Store TM Addr × Nat :=
  (h ++ [.valueCtx parent key val], h.length)

/-- Function `setTypeInfo` of `conn.go`, on the store. -/
def Store.setTypeInfo (h : Store TM Addr) (ctx : Nat) (info : Option TM) : Store TM Addr × Nat :=
  Store.WithValue h ctx (.ofCtxKey ctxTypeMap) (.pgtypeMap info)

/-- Function `setRemoteAddress` of `conn.go`, on the store. -/
def Store.setRemoteAddress (h : Store TM Addr) (ctx : Nat) (addr : Option Addr) :
    Store TM Addr × Nat :=
  Store.WithValue h ctx (.ofCtxKey ctxRemoteAddr) (Any.ofAddr addr)

/-- Function `setClientParameters` of `conn.go`, on the store. -/
def Store.setClientParameters (h : Store TM Addr) (ctx : Nat) (params : Parameters) :
    Store TM Addr × Nat :=
  if params = none then (h, ctx)
  else Store.WithValue h ctx (.ofCtxKey ctxClientMetadata) (.parameters params)

/-- Function `setServerParameters` of `conn.go`, on the store. -/
def Store.setServerParameters (h : Store TM Addr) (ctx : Nat) (params : Parameters) :
    Store TM Addr × Nat :=
  if params = none then (h, ctx)
  else Store.WithValue h ctx (.ofCtxKey ctxServerMetadata) (.parameters params)

/-- Runs one setter call on the store. -/
def Store.apply (h : Store TM Addr) (ctx : Nat) : Setter TM Addr → Store TM Addr × Nat
  | .typeInfo info => Store.setTypeInfo h ctx info
  | .remoteAddress addr => Store.setRemoteAddress h ctx addr
  | .clientParameters params => Store.setClientParameters h ctx params
  | .serverParameters params => Store.setServerParameters h ctx params

/-- A store with the empty base context at reference 0 and, at reference 1, a
context derived from it that carries the old client parameters. -/
def sampleStore : Store Nat TCPAddr :=
  [.impl none none (fun _ => none) (fun _ => .nil),
   .valueCtx 0 (.ofCtxKey ctxClientMetadata) (.parameters sampleClientOld)]

/-! ## Lookup through one derived node -/

theorem Value_WithValue_same (ctx : Context TM Addr) (k : Key) (v : Any TM Addr) :
    (WithValue ctx k v).Value k = v := by
  simp [WithValue, Context.Value]

theorem Value_WithValue_other (ctx : Context TM Addr) (k j : Key) (v : Any TM Addr)
    (h : k ≠ j) : (WithValue ctx k v).Value j = ctx.Value j := by
  simp [WithValue, Context.Value, h]

theorem Value_setTypeInfo_other (ctx : Context TM Addr) (info : Option TM) (j : Key)
    (h : Key.ofCtxKey ctxTypeMap ≠ j) : (setTypeInfo ctx info).Value j = ctx.Value j :=
  Value_WithValue_other ctx _ j _ h

theorem Value_setRemoteAddress_other (ctx : Context TM Addr) (addr : Option Addr) (j : Key)
    (h : Key.ofCtxKey ctxRemoteAddr ≠ j) : (setRemoteAddress ctx addr).Value j = ctx.Value j :=
  Value_WithValue_other ctx _ j _ h

theorem Value_setClientParameters_other (ctx : Context TM Addr) (params : Parameters) (j : Key)
    (h : Key.ofCtxKey ctxClientMetadata ≠ j) :
    (setClientParameters ctx params).Value j = ctx.Value j := by
  unfold setClientParameters
  split
  · rfl
  · exact Value_WithValue_other ctx _ j _ h

theorem Value_setServerParameters_other (ctx : Context TM Addr) (params : Parameters) (j : Key)
    (h : Key.ofCtxKey ctxServerMetadata ≠ j) :
    (setServerParameters ctx params).Value j = ctx.Value j := by
  unfold setServerParameters
  split
  · rfl
  · exact Value_WithValue_other ctx _ j _ h

theorem Kind.key_injective (k j : Kind) (h : k.key = j.key) : k = j := by
  cases k <;> cases j <;> first | rfl | exact absurd h (by decide)

theorem Value_apply_other (ctx : Context TM Addr) (s : Setter TM Addr) (k : Kind)
    (h : s.kind ≠ k) : (Setter.apply ctx s).Value (.ofCtxKey k.key) = ctx.Value (.ofCtxKey k.key) := by
  have hk : ∀ j : Kind, s.kind = j → Key.ofCtxKey j.key ≠ Key.ofCtxKey k.key := by
    intro j hj e
    exact h (hj.trans (Kind.key_injective j k (Key.ofCtxKey.inj e)))
  cases s with
  | typeInfo info => exact Value_setTypeInfo_other ctx info _ (hk .typeMap rfl)
  | remoteAddress addr => exact Value_setRemoteAddress_other ctx addr _ (hk .remoteAddr rfl)
  | clientParameters params =>
    exact Value_setClientParameters_other ctx params _ (hk .clientParameters rfl)
  | serverParameters params =>
    exact Value_setServerParameters_other ctx params _ (hk .serverParameters rfl)

theorem Value_derive_other (calls : List (Setter TM Addr)) (k : Kind) :
    ∀ ctx : Context TM Addr, (∀ s ∈ calls, s.kind ≠ k) →
      (derive ctx calls).Value (.ofCtxKey k.key) = ctx.Value (.ofCtxKey k.key) := by
  induction calls with
  | nil => intro ctx _; rfl
  | cons s rest ih =>
    intro ctx h
    have hs : s.kind ≠ k := h s (List.mem_cons_self s rest)
    have hrest : ∀ t ∈ rest, t.kind ≠ k := fun t ht => h t (List.mem_cons_of_mem s ht)
    calc (derive ctx (s :: rest)).Value (.ofCtxKey k.key)
        = (derive (Setter.apply ctx s) rest).Value (.ofCtxKey k.key) := rfl
      _ = (Setter.apply ctx s).Value (.ofCtxKey k.key) := ih _ hrest
      _ = ctx.Value (.ofCtxKey k.key) := Value_apply_other ctx s k hs

theorem Value_isNil_of_neverAttached (k : Key) :
    ∀ ctx : Context TM Addr, ctx.neverAttached k = true → (ctx.Value k).isNil = true := by
  intro ctx
  induction ctx with
  | impl dl d e f => intro h; exact h
  | valueCtx parent key val ih =>
    intro h
    simp only [Context.neverAttached, Bool.and_eq_true, decide_eq_true_eq] at h
    simp only [Context.Value, if_neg h.1]
    exact ih h.2

theorem remote_address_lookup (ctx : Context TM Addr) (a : Option Addr) :
    (if ((setRemoteAddress ctx a).Value (.ofCtxKey ctxRemoteAddr)).isNil then .ok none
      else ((setRemoteAddress ctx a).Value (.ofCtxKey ctxRemoteAddr)).assertNetAddr)
      = (.ok a : Except Panic (Option Addr)) := by
  cases a with
  | none => rfl
  | some x => rfl

theorem Parameters.eq_empty_of_len (p : Parameters) (hp : p ≠ none)
    (h0 : Parameters.len p = 0) : p = emptyParams := by
  cases p with
  | none => exact absurd rfl hp
  | some m =>
    have he : m.entries = [] := List.length_eq_zero.mp h0
    exact congrArg some (AList.ext he)

/-! ## Round trips -/

/-- C1: for every context and every non-nil Parameters map p, whatever its
keys, ClientParameters after setClientParameters returns p itself and
ServerParameters after setServerParameters returns p itself, so that every
lookup in the result is the lookup in p. -/
theorem parameters_round_trip (ctx : Context TM Addr) (p : Parameters) (hp : p ≠ none) :
    ClientParameters (setClientParameters ctx p) = .ok p
    ∧ ServerParameters (setServerParameters ctx p) = .ok p
    ∧ (∀ k, (ClientParameters (setClientParameters ctx p)).map
          (fun r => Parameters.lookup r k) = .ok (Parameters.lookup p k))
    ∧ (∀ k, (ServerParameters (setServerParameters ctx p)).map
          (fun r => Parameters.lookup r k) = .ok (Parameters.lookup p k)) := by
  have hc : ClientParameters (setClientParameters ctx p) = .ok p := by
    cases p with
    | none => exact absurd rfl hp
    | some m => rfl
  have hs : ServerParameters (setServerParameters ctx p) = .ok p := by
    cases p with
    | none => exact absurd rfl hp
    | some m => rfl
  refine ⟨hc, hs, ?_, ?_⟩
  · intro k
    rw [hc]
    rfl
  · intro k
    rw [hs]
    rfl

theorem parameters_round_trip_witness :
    sampleUnrecognized ≠ none
    ∧ ClientParameters (setClientParameters (Background : Context Nat TCPAddr) sampleUnrecognized)
        = .ok sampleUnrecognized
    ∧ Parameters.lookup sampleUnrecognized "x_custom_tag" = some "1" :=
  ⟨by decide,
   (parameters_round_trip (Background : Context Nat TCPAddr) sampleUnrecognized (by decide)).1,
   by decide⟩

/-- C2: for every context and all non-empty Parameters maps A and B, attaching
A and then B with setClientParameters makes ClientParameters return B exactly,
and a key with an entry in A and none in B has no entry in the result; the
same for setServerParameters and ServerParameters. -/
theorem reattach_replaces (ctx0 : Context TM Addr) (A B : Parameters)
    (_hA : 0 < Parameters.len A) (hB : 0 < Parameters.len B) :
    ClientParameters (setClientParameters (setClientParameters ctx0 A) B) = .ok B
    ∧ ServerParameters (setServerParameters (setServerParameters ctx0 A) B) = .ok B
    ∧ (∀ k, Parameters.lookup A k ≠ none → Parameters.lookup B k = none →
        (ClientParameters (setClientParameters (setClientParameters ctx0 A) B)).map
          (fun r => Parameters.lookup r k) = .ok none)
    ∧ (∀ k, Parameters.lookup A k ≠ none → Parameters.lookup B k = none →
        (ServerParameters (setServerParameters (setServerParameters ctx0 A) B)).map
          (fun r => Parameters.lookup r k) = .ok none) := by
  have hc : ClientParameters (setClientParameters (setClientParameters ctx0 A) B) = .ok B := by
    cases B with
    | none => exact absurd hB (by decide)
    | some m => rfl
  have hs : ServerParameters (setServerParameters (setServerParameters ctx0 A) B) = .ok B := by
    cases B with
    | none => exact absurd hB (by decide)
    | some m => rfl
  refine ⟨hc, hs, ?_, ?_⟩
  · intro k _ hk
    rw [hc, ← hk]
    rfl
  · intro k _ hk
    rw [hs, ← hk]
    rfl

theorem reattach_replaces_witness :
    0 < Parameters.len sampleClientOld ∧ 0 < Parameters.len sampleClientNew
    ∧ Parameters.lookup sampleClientOld "database" = some "shop"
    ∧ (ClientParameters (setClientParameters
          (setClientParameters (Background : Context Nat TCPAddr) sampleClientOld)
          sampleClientNew)).map (fun r => Parameters.lookup r "database") = .ok none :=
  ⟨by decide, by decide, by decide,
   (reattach_replaces (Background : Context Nat TCPAddr) sampleClientOld sampleClientNew
      (by decide) (by decide)).2.2.1 "database" (by decide) (by decide)⟩

/-! ## Nil and empty maps -/

/-- C3, as stated, fails: the empty non-nil map has zero entries, yet attaching
it on a context that holds client parameters makes ClientParameters return the
empty map instead of the parameters attached before. -/
theorem empty_map_shadows :
    Parameters.len emptyParams = 0
    ∧ ClientParameters (setClientParameters (Background : Context Nat TCPAddr) sampleClientOld)
        = .ok sampleClientOld
    ∧ ClientParameters (setClientParameters
        (setClientParameters (Background : Context Nat TCPAddr) sampleClientOld) emptyParams)
        = .ok emptyParams
    ∧ ClientParameters (setClientParameters
        (setClientParameters (Background : Context Nat TCPAddr) sampleClientOld) emptyParams)
        ≠ ClientParameters (setClientParameters (Background : Context Nat TCPAddr) sampleClientOld) := by
  refine ⟨by decide, rfl, rfl, ?_⟩
  intro h
  have h2 : (Except.ok emptyParams : Except Panic Parameters) = .ok sampleClientOld := h
  exact absurd (congrArg Parameters.len (Except.ok.inj h2)) (by decide)

/-- C3, amended: for every context and every Parameters map with zero entries,
setClientParameters leaves TypeMap, RemoteAddress and ServerParameters as they
are on the context, and ClientParameters too when the map is nil, while a
non-nil empty map is what ClientParameters then returns; the same for
setServerParameters, with the two kinds exchanged. -/
theorem empty_params_attach (ctx : Context TM Addr) (params : Parameters)
    (h0 : Parameters.len params = 0) :
    (TypeMap (setClientParameters ctx params) = TypeMap ctx
      ∧ RemoteAddress (setClientParameters ctx params) = RemoteAddress ctx
      ∧ ServerParameters (setClientParameters ctx params) = ServerParameters ctx
      ∧ (params = none → ClientParameters (setClientParameters ctx params) = ClientParameters ctx)
      ∧ (params ≠ none → ClientParameters (setClientParameters ctx params) = .ok emptyParams))
    ∧ (TypeMap (setServerParameters ctx params) = TypeMap ctx
      ∧ RemoteAddress (setServerParameters ctx params) = RemoteAddress ctx
      ∧ ClientParameters (setServerParameters ctx params) = ClientParameters ctx
      ∧ (params = none → ServerParameters (setServerParameters ctx params) = ServerParameters ctx)
      ∧ (params ≠ none → ServerParameters (setServerParameters ctx params) = .ok emptyParams)) := by
  refine ⟨⟨?_, ?_, ?_, ?_, ?_⟩, ⟨?_, ?_, ?_, ?_, ?_⟩⟩
  · unfold TypeMap
    rw [Value_setClientParameters_other ctx params _ (by decide)]
  · unfold RemoteAddress
    rw [Value_setClientParameters_other ctx params _ (by decide)]
  · unfold ServerParameters
    rw [Value_setClientParameters_other ctx params _ (by decide)]
  · intro hn
    subst hn
    rfl
  · intro hn
    rw [Parameters.eq_empty_of_len params hn h0]
    rfl
  · unfold TypeMap
    rw [Value_setServerParameters_other ctx params _ (by decide)]
  · unfold RemoteAddress
    rw [Value_setServerParameters_other ctx params _ (by decide)]
  · unfold ClientParameters
    rw [Value_setServerParameters_other ctx params _ (by decide)]
  · intro hn
    subst hn
    rfl
  · intro hn
    rw [Parameters.eq_empty_of_len params hn h0]
    rfl

theorem empty_params_attach_witness :
    Parameters.len emptyParams = 0 ∧ emptyParams ≠ none
    ∧ ServerParameters (setClientParameters
        (setServerParameters (Background : Context Nat TCPAddr) sampleServerParams) emptyParams)
        = .ok sampleServerParams
    ∧ ClientParameters (setClientParameters
        (setServerParameters (Background : Context Nat TCPAddr) sampleServerParams) emptyParams)
        = .ok emptyParams :=
  ⟨by decide, by decide,
   (empty_params_attach (setServerParameters (Background : Context Nat TCPAddr) sampleServerParams)
      emptyParams (by decide)).1.2.2.1,
   (empty_params_attach (setServerParameters (Background : Context Nat TCPAddr) sampleServerParams)
      emptyParams (by decide)).1.2.2.2.2 (by decide)⟩

/-- C4: attaching the nil map returns the parent context itself, for both
kinds, so each of the four getters returns on the result what it returns on
the parent. -/
theorem nil_params_returns_parent (ctx : Context TM Addr) :
    setClientParameters ctx none = ctx
    ∧ setServerParameters ctx none = ctx
    ∧ (TypeMap (setClientParameters ctx none) = TypeMap ctx
      ∧ RemoteAddress (setClientParameters ctx none) = RemoteAddress ctx
      ∧ ClientParameters (setClientParameters ctx none) = ClientParameters ctx
      ∧ ServerParameters (setClientParameters ctx none) = ServerParameters ctx)
    ∧ (TypeMap (setServerParameters ctx none) = TypeMap ctx
      ∧ RemoteAddress (setServerParameters ctx none) = RemoteAddress ctx
      ∧ ClientParameters (setServerParameters ctx none) = ClientParameters ctx
      ∧ ServerParameters (setServerParameters ctx none) = ServerParameters ctx) :=
  ⟨rfl, rfl, ⟨rfl, rfl, rfl, rfl⟩, ⟨rfl, rfl, rfl, rfl⟩⟩

/-- C5: on a context where no client parameters were ever attached,
ClientParameters returns nil, while after setClientParameters with an empty
non-nil map it returns that map, present and empty, and the two results
differ; likewise for the server kind. -/
theorem empty_attached_differs_from_absent (ctx : Context TM Addr) (e : Parameters)
    (he : e ≠ none) (h0 : Parameters.len e = 0) :
    (ctx.neverAttached (.ofCtxKey ctxClientMetadata) = true →
      ClientParameters ctx = .ok none
      ∧ ClientParameters (setClientParameters ctx e) = .ok e
      ∧ (∃ m, e = some m ∧ m.entries = [])
      ∧ ClientParameters (setClientParameters ctx e) ≠ ClientParameters ctx)
    ∧ (ctx.neverAttached (.ofCtxKey ctxServerMetadata) = true →
      ServerParameters ctx = .ok none
      ∧ ServerParameters (setServerParameters ctx e) = .ok e
      ∧ (∃ m, e = some m ∧ m.entries = [])
      ∧ ServerParameters (setServerParameters ctx e) ≠ ServerParameters ctx) := by
  have hm : ∃ m, e = some m ∧ m.entries = [] := by
    cases e with
    | none => exact absurd rfl he
    | some m => exact ⟨m, rfl, List.length_eq_zero.mp h0⟩
  constructor
  · intro h
    have habs : ClientParameters ctx = .ok none := by
      unfold ClientParameters
      simp only [Value_isNil_of_neverAttached _ ctx h, if_true]
    have hset : ClientParameters (setClientParameters ctx e) = .ok e := by
      cases e with
      | none => exact absurd rfl he
      | some m => rfl
    refine ⟨habs, hset, hm, ?_⟩
    rw [habs, hset]
    intro hc
    exact he (Except.ok.inj hc)
  · intro h
    have habs : ServerParameters ctx = .ok none := by
      unfold ServerParameters
      simp only [Value_isNil_of_neverAttached _ ctx h, if_true]
    have hset : ServerParameters (setServerParameters ctx e) = .ok e := by
      cases e with
      | none => exact absurd rfl he
      | some m => rfl
    refine ⟨habs, hset, hm, ?_⟩
    rw [habs, hset]
    intro hc
    exact he (Except.ok.inj hc)

theorem empty_attached_differs_from_absent_witness :
    emptyParams ≠ none ∧ Parameters.len emptyParams = 0
    ∧ (setServerParameters (setRemoteAddress (Background : Context Nat TCPAddr) (some sampleAddr))
        sampleServerParams).neverAttached (.ofCtxKey ctxClientMetadata) = true
    ∧ ClientParameters (setClientParameters
        (setServerParameters (setRemoteAddress (Background : Context Nat TCPAddr) (some sampleAddr))
          sampleServerParams) emptyParams)
      ≠ ClientParameters
        (setServerParameters (setRemoteAddress (Background : Context Nat TCPAddr) (some sampleAddr))
          sampleServerParams) :=
  ⟨by decide, by decide, by decide,
   ((empty_attached_differs_from_absent
      (setServerParameters (setRemoteAddress (Background : Context Nat TCPAddr) (some sampleAddr))
        sampleServerParams) emptyParams (by decide) (by decide)).1 (by decide)).2.2.2⟩

/-! ## Type map and remote address -/

/-- C6: for every context and every type map value, nil pointer included,
TypeMap after setTypeInfo returns that value, whatever was attached before. -/
theorem type_map_round_trip (ctx : Context TM Addr) (v : Option TM) :
    TypeMap (setTypeInfo ctx v) = .ok v := rfl

/-- C7: for every context and every address value, nil included,
RemoteAddress after setRemoteAddress returns that value, whatever was attached
before. -/
theorem remote_address_round_trip (ctx : Context TM Addr) (a : Option Addr) :
    RemoteAddress (setRemoteAddress ctx a) = .ok a := by
  cases a with
  | none => rfl
  | some x => rfl

/-! ## Absence, independence and the handshake -/

/-- C8: on the context derived from the empty base context by any finite
sequence of calls of the four setters, a getter returns nil whenever no call
of its own kind occurs in the sequence; and all four getters return nil on the
empty base context itself. -/
theorem never_attached_kind_is_absent (calls : List (Setter TM Addr)) :
    ((∀ s ∈ calls, s.kind ≠ .typeMap) → TypeMap (derive Background calls) = .ok none)
    ∧ ((∀ s ∈ calls, s.kind ≠ .remoteAddr) → RemoteAddress (derive Background calls) = .ok none)
    ∧ ((∀ s ∈ calls, s.kind ≠ .clientParameters) →
        ClientParameters (derive Background calls) = .ok none)
    ∧ ((∀ s ∈ calls, s.kind ≠ .serverParameters) →
        ServerParameters (derive Background calls) = .ok none)
    ∧ TypeMap (Background : Context TM Addr) = .ok none
    ∧ RemoteAddress (Background : Context TM Addr) = .ok none
    ∧ ClientParameters (Background : Context TM Addr) = .ok none
    ∧ ServerParameters (Background : Context TM Addr) = .ok none := by
  refine ⟨?_, ?_, ?_, ?_, rfl, rfl, rfl, rfl⟩
  · intro h
    have hv := Value_derive_other calls .typeMap (Background : Context TM Addr) h
    unfold TypeMap
    simp only [Kind.key] at hv
    rw [hv]
    rfl
  · intro h
    have hv := Value_derive_other calls .remoteAddr (Background : Context TM Addr) h
    unfold RemoteAddress
    simp only [Kind.key] at hv
    rw [hv]
    rfl
  · intro h
    have hv := Value_derive_other calls .clientParameters (Background : Context TM Addr) h
    unfold ClientParameters
    simp only [Kind.key] at hv
    rw [hv]
    rfl
  · intro h
    have hv := Value_derive_other calls .serverParameters (Background : Context TM Addr) h
    unfold ServerParameters
    simp only [Kind.key] at hv
    rw [hv]
    rfl

theorem never_attached_kind_is_absent_witness :
    TypeMap (derive (Background : Context Nat TCPAddr)
        [.remoteAddress (some sampleAddr), .serverParameters sampleServerParams]) = .ok none
    ∧ ClientParameters (derive (Background : Context Nat TCPAddr)
        [.remoteAddress (some sampleAddr), .serverParameters sampleServerParams]) = .ok none
    ∧ RemoteAddress (derive (Background : Context Nat TCPAddr)
        [.typeInfo (some 1), .clientParameters sampleClientOld]) = .ok none
    ∧ ServerParameters (derive (Background : Context Nat TCPAddr)
        [.typeInfo (some 1), .clientParameters sampleClientOld]) = .ok none :=
  ⟨(never_attached_kind_is_absent
      [.remoteAddress (some sampleAddr), .serverParameters sampleServerParams]).1
      (by simp [Setter.kind]),
   (never_attached_kind_is_absent
      [.remoteAddress (some sampleAddr), .serverParameters sampleServerParams]).2.2.1
      (by simp [Setter.kind]),
   (never_attached_kind_is_absent
      [.typeInfo (some 1), .clientParameters sampleClientOld]).2.1
      (by simp [Setter.kind]),
   (never_attached_kind_is_absent
      [.typeInfo (some 1), .clientParameters sampleClientOld]).2.2.2.1
      (by simp [Setter.kind])⟩

/-- C9: for every context and every Parameters map, nil included,
setClientParameters does not change what ServerParameters returns and
setServerParameters does not change what ClientParameters returns. -/
theorem client_server_independent (ctx : Context TM Addr) (p : Parameters) :
    ServerParameters (setClientParameters ctx p) = ServerParameters ctx
    ∧ ClientParameters (setServerParameters ctx p) = ClientParameters ctx := by
  constructor
  · unfold ServerParameters
    rw [Value_setClientParameters_other ctx p _ (by decide)]
  · unfold ClientParameters
    rw [Value_setServerParameters_other ctx p _ (by decide)]

/-- C10: for every base context, remote address, type map and non-empty
Parameters map p, the context obtained by setRemoteAddress, then setTypeInfo,
then setServerParameters gives back the address through RemoteAddress, the
type map through TypeMap and p through ServerParameters, so that indexing the
result with any key gives what indexing p gives. -/
theorem handshake_scenario (ctx : Context TM Addr) (a : Option Addr) (t : Option TM)
    (p : Parameters) (hp : 0 < Parameters.len p) :
    RemoteAddress (setServerParameters (setTypeInfo (setRemoteAddress ctx a) t) p) = .ok a
    ∧ TypeMap (setServerParameters (setTypeInfo (setRemoteAddress ctx a) t) p) = .ok t
    ∧ ServerParameters (setServerParameters (setTypeInfo (setRemoteAddress ctx a) t) p) = .ok p
    ∧ (∀ k, (ServerParameters (setServerParameters (setTypeInfo (setRemoteAddress ctx a) t) p)).map
          (fun r => Parameters.get r k) = .ok (Parameters.get p k)) := by
  have hs : ServerParameters (setServerParameters (setTypeInfo (setRemoteAddress ctx a) t) p)
      = .ok p := by
    cases p with
    | none => exact absurd hp (by decide)
    | some m => rfl
  refine ⟨?_, ?_, hs, ?_⟩
  · unfold RemoteAddress
    rw [Value_setServerParameters_other _ p _ (by decide),
      Value_setTypeInfo_other _ t _ (by decide)]
    exact remote_address_lookup ctx a
  · unfold TypeMap
    rw [Value_setServerParameters_other _ p _ (by decide)]
    rfl
  · intro k
    rw [hs]
    rfl

theorem handshake_scenario_witness :
    0 < Parameters.len sampleServerParams
    ∧ RemoteAddress (setServerParameters
        (setTypeInfo (setRemoteAddress (Background : Context Nat TCPAddr) (some sampleAddr))
          (some 1)) sampleServerParams) = .ok (some sampleAddr)
    ∧ (ServerParameters (setServerParameters
        (setTypeInfo (setRemoteAddress (Background : Context Nat TCPAddr) (some sampleAddr))
          (some 1)) sampleServerParams)).map (fun r => Parameters.get r "server_version")
        = .ok (Parameters.get sampleServerParams "server_version")
    ∧ Parameters.get sampleServerParams "server_version" = "15.2" :=
  ⟨by decide,
   (handshake_scenario (Background : Context Nat TCPAddr) (some sampleAddr) (some 1)
      sampleServerParams (by decide)).1,
   (handshake_scenario (Background : Context Nat TCPAddr) (some sampleAddr) (some 1)
      sampleServerParams (by decide)).2.2.2 "server_version",
   by decide⟩


theorem Store.wf_parent_lt (h : Store TM Addr) (hwf : h.wf = true) (i parent : Nat) (key : Key)
    (val : Any TM Addr) (hi : h[i]? = some (.valueCtx parent key val)) : parent < i := by
  have hlen : i < h.length := by
    by_contra hc
    rw [List.getElem?_eq_none (Nat.le_of_not_lt hc)] at hi
    exact absurd hi (by simp)
  unfold Store.wf at hwf
  rw [List.all_eq_true] at hwf
  have := hwf i (List.mem_range.mpr hlen)
  rw [hi] at this
  simpa using this

theorem Store.loadAux_fuel (h : Store TM Addr) (hwf : h.wf = true) :
    ∀ f1 f2 ref : Nat, ref < f1 → ref < f2 → Store.loadAux h f1 ref = Store.loadAux h f2 ref := by
  intro f1
  induction f1 with
  | zero => intro f2 ref h1 _; exact absurd h1 (Nat.not_lt_zero ref)
  | succ n ih =>
    intro f2 ref h1 h2
    cases f2 with
    | zero => exact absurd h2 (Nat.not_lt_zero ref)
    | succ m =>
      simp only [Store.loadAux]
      cases hobj : h[ref]? with
      | none => rfl
      | some o =>
        cases o with
        | impl dl d e f => rfl
        | valueCtx parent key val =>
          have hp : parent < ref := Store.wf_parent_lt h hwf ref parent key val hobj
          simp only
          rw [ih m parent (by omega) (by omega)]

theorem Store.loadAux_append (h : Store TM Addr) (x : Obj TM Addr) (hwf : h.wf = true) :
    ∀ fuel ref : Nat, ref < h.length →
      Store.loadAux (h ++ [x]) fuel ref = Store.loadAux h fuel ref := by
  intro fuel
  induction fuel with
  | zero => intro ref _; rfl
  | succ n ih =>
    intro ref hr
    simp only [Store.loadAux]
    rw [List.getElem?_append_left hr]
    cases hobj : h[ref]? with
    | none => rfl
    | some o =>
      cases o with
      | impl dl d e f => rfl
      | valueCtx parent key val =>
        have hp : parent < ref := Store.wf_parent_lt h hwf ref parent key val hobj
        simp only
        rw [ih parent (by omega)]

theorem Store.load_append (h : Store TM Addr) (x : Obj TM Addr) (hwf : h.wf = true)
    (ref : Nat) (hr : ref < h.length) : Store.load (h ++ [x]) ref = Store.load h ref :=
  Store.loadAux_append h x hwf (ref + 1) ref hr

theorem Store.load_new (h : Store TM Addr) (hwf : h.wf = true) (parent : Nat) (key : Key)
    (val : Any TM Addr) (hp : parent < h.length) :
    Store.load (h ++ [.valueCtx parent key val]) h.length
      = .valueCtx (Store.load h parent) key val := by
  have hstep : Store.loadAux (h ++ [.valueCtx parent key val]) (h.length + 1) h.length
      = .valueCtx (Store.loadAux (h ++ [.valueCtx parent key val]) h.length parent) key val := by
    simp only [Store.loadAux]
    rw [List.getElem?_append_right (Nat.le_refl _)]
    simp only [Nat.sub_self, List.getElem?_cons_zero]
  unfold Store.load
  rw [hstep, Store.loadAux_append h _ hwf h.length parent hp,
    Store.loadAux_fuel h hwf h.length (parent + 1) parent hp (Nat.lt_succ_self parent)]

theorem Store.wf_append (h : Store TM Addr) (hwf : h.wf = true) (parent : Nat) (key : Key)
    (val : Any TM Addr) (hp : parent < h.length) :
    Store.wf (h ++ [.valueCtx parent key val]) = true := by
  unfold Store.wf
  rw [List.all_eq_true]
  intro i hi
  have hi2 : i < h.length + 1 := by simpa using List.mem_range.mp hi
  by_cases hlt : i < h.length
  · rw [List.getElem?_append_left hlt]
    unfold Store.wf at hwf
    rw [List.all_eq_true] at hwf
    exact hwf i (List.mem_range.mpr hlt)
  · have he : i = h.length := by omega
    subst he
    rw [List.getElem?_append_right (Nat.le_refl _)]
    simpa using hp

theorem Store.apply_frame (h : Store TM Addr) (hwf : h.wf = true) (ctx old : Nat)
    (s : Setter TM Addr) (hold : old < h.length) :
    (Store.apply h ctx s).1.load old = h.load old := by
  cases s with
  | typeInfo info => exact Store.load_append h _ hwf old hold
  | remoteAddress addr => exact Store.load_append h _ hwf old hold
  | clientParameters params =>
    cases params with
    | none => rfl
    | some m => exact Store.load_append h _ hwf old hold
  | serverParameters params =>
    cases params with
    | none => rfl
    | some m => exact Store.load_append h _ hwf old hold

theorem Store.apply_refines (h : Store TM Addr) (hwf : h.wf = true) (ctx : Nat)
    (s : Setter TM Addr) (hctx : ctx < h.length) :
    (Store.apply h ctx s).1.load (Store.apply h ctx s).2 = Setter.apply (h.load ctx) s := by
  cases s with
  | typeInfo info => exact Store.load_new h hwf ctx _ _ hctx
  | remoteAddress addr => exact Store.load_new h hwf ctx _ _ hctx
  | clientParameters params =>
    cases params with
    | none => rfl
    | some m => exact Store.load_new h hwf ctx _ _ hctx
  | serverParameters params =>
    cases params with
    | none => rfl
    | some m => exact Store.load_new h hwf ctx _ _ hctx

theorem Store.apply_wf (h : Store TM Addr) (hwf : h.wf = true) (ctx : Nat)
    (s : Setter TM Addr) (hctx : ctx < h.length) : Store.wf (Store.apply h ctx s).1 = true := by
  cases s with
  | typeInfo info => exact Store.wf_append h hwf ctx _ _ hctx
  | remoteAddress addr => exact Store.wf_append h hwf ctx _ _ hctx
  | clientParameters params =>
    cases params with
    | none => exact hwf
    | some m => exact Store.wf_append h hwf ctx _ _ hctx
  | serverParameters params =>
    cases params with
    | none => exact hwf
    | some m => exact Store.wf_append h hwf ctx _ _ hctx

/-! ## Snapshot isolation -/

/-- C11: deriving a new context never changes what an older context shows.
In every store whose value nodes point to objects allocated before them, for
every context ctx1 of the store and every setter call made on it, each of
TypeMap, RemoteAddress, ClientParameters and ServerParameters returns on ctx1
in the store after the call exactly what it returned on ctx1 before the call,
while the reference returned by the call stands for the derived context. -/
theorem snapshot_isolation (h : Store TM Addr) (ctx1 : Nat) (s : Setter TM Addr)
    (hwf : h.wf = true) (h1 : ctx1 < h.length) :
    TypeMap ((Store.apply h ctx1 s).1.load ctx1) = TypeMap (h.load ctx1)
    ∧ RemoteAddress ((Store.apply h ctx1 s).1.load ctx1) = RemoteAddress (h.load ctx1)
    ∧ ClientParameters ((Store.apply h ctx1 s).1.load ctx1) = ClientParameters (h.load ctx1)
    ∧ ServerParameters ((Store.apply h ctx1 s).1.load ctx1) = ServerParameters (h.load ctx1)
    ∧ (Store.apply h ctx1 s).1.load (Store.apply h ctx1 s).2 = Setter.apply (h.load ctx1) s
    ∧ Store.wf (Store.apply h ctx1 s).1 = true := by
  have hf := Store.apply_frame h hwf ctx1 ctx1 s h1
  refine ⟨?_, ?_, ?_, ?_, Store.apply_refines h hwf ctx1 s h1, Store.apply_wf h hwf ctx1 s h1⟩
  · rw [hf]
  · rw [hf]
  · rw [hf]
  · rw [hf]

theorem snapshot_isolation_witness :
    sampleStore.wf = true ∧ 1 < sampleStore.length
    ∧ ClientParameters ((Store.apply sampleStore 1 (.clientParameters sampleClientNew)).1.load 1)
        = ClientParameters (sampleStore.load 1)
    ∧ (ClientParameters (sampleStore.load 1)).map
        (fun r => Parameters.get r ParamApplicationName) = .ok "psql"
    ∧ (ClientParameters ((Store.apply sampleStore 1 (.clientParameters sampleClientNew)).1.load
          (Store.apply sampleStore 1 (.clientParameters sampleClientNew)).2)).map
        (fun r => Parameters.get r ParamApplicationName) = .ok "pgcli" :=
  ⟨by decide, by decide,
   (snapshot_isolation sampleStore 1 (.clientParameters sampleClientNew)
      (by decide) (by decide)).2.2.1,
   by rfl, by rfl⟩

/-! ## The getters never raise -/

theorem fits_apply (ctx : Context TM Addr) (s : Setter TM Addr) (k : Kind)
    (h : (ctx.Value (.ofCtxKey k.key)).fits k = true) :
    ((Setter.apply ctx s).Value (.ofCtxKey k.key)).fits k = true := by
  by_cases hk : s.kind = k
  · subst hk
    cases s with
    | typeInfo info => rfl
    | remoteAddress addr =>
      cases addr with
      | none => rfl
      | some a => rfl
    | clientParameters params =>
      cases params with
      | none => exact h
      | some m => rfl
    | serverParameters params =>
      cases params with
      | none => exact h
      | some m => rfl
  · rw [Value_apply_other ctx s k hk]
    exact h

theorem fits_derive (calls : List (Setter TM Addr)) (k : Kind) :
    ∀ ctx : Context TM Addr, (ctx.Value (.ofCtxKey k.key)).fits k = true →
      ((derive ctx calls).Value (.ofCtxKey k.key)).fits k = true := by
  induction calls with
  | nil => intro ctx h; exact h
  | cons s rest ih => intro ctx h; exact ih (Setter.apply ctx s) (fits_apply ctx s k h)

theorem TypeMap_ok_of_fits (ctx : Context TM Addr)
    (h : (ctx.Value (.ofCtxKey ctxTypeMap)).fits .typeMap = true) : ∃ r, TypeMap ctx = .ok r := by
  unfold TypeMap
  cases hv : ctx.Value (.ofCtxKey ctxTypeMap) with
  | nil => exact ⟨none, rfl⟩
  | pgtypeMap p => exact ⟨p, rfl⟩
  | netAddr a => rw [hv] at h; exact absurd h (by simp [Any.fits])
  | parameters p => rw [hv] at h; exact absurd h (by simp [Any.fits])
  | other typ id => rw [hv] at h; exact absurd h (by simp [Any.fits])

theorem RemoteAddress_ok_of_fits (ctx : Context TM Addr)
    (h : (ctx.Value (.ofCtxKey ctxRemoteAddr)).fits .remoteAddr = true) :
    ∃ r, RemoteAddress ctx = .ok r := by
  unfold RemoteAddress
  cases hv : ctx.Value (.ofCtxKey ctxRemoteAddr) with
  | nil => exact ⟨none, rfl⟩
  | pgtypeMap p => rw [hv] at h; exact absurd h (by simp [Any.fits])
  | netAddr a => exact ⟨some a, rfl⟩
  | parameters p => rw [hv] at h; exact absurd h (by simp [Any.fits])
  | other typ id => rw [hv] at h; exact absurd h (by simp [Any.fits])

theorem ClientParameters_ok_of_fits (ctx : Context TM Addr)
    (h : (ctx.Value (.ofCtxKey ctxClientMetadata)).fits .clientParameters = true) :
    ∃ r, ClientParameters ctx = .ok r := by
  unfold ClientParameters
  cases hv : ctx.Value (.ofCtxKey ctxClientMetadata) with
  | nil => exact ⟨none, rfl⟩
  | pgtypeMap p => rw [hv] at h; exact absurd h (by simp [Any.fits])
  | netAddr a => rw [hv] at h; exact absurd h (by simp [Any.fits])
  | parameters p => exact ⟨p, rfl⟩
  | other typ id => rw [hv] at h; exact absurd h (by simp [Any.fits])

theorem ServerParameters_ok_of_fits (ctx : Context TM Addr)
    (h : (ctx.Value (.ofCtxKey ctxServerMetadata)).fits .serverParameters = true) :
    ∃ r, ServerParameters ctx = .ok r := by
  unfold ServerParameters
  cases hv : ctx.Value (.ofCtxKey ctxServerMetadata) with
  | nil => exact ⟨none, rfl⟩
  | pgtypeMap p => rw [hv] at h; exact absurd h (by simp [Any.fits])
  | netAddr a => rw [hv] at h; exact absurd h (by simp [Any.fits])
  | parameters p => exact ⟨p, rfl⟩
  | other typ id => rw [hv] at h; exact absurd h (by simp [Any.fits])

/-- C12: on every context derived from the empty base context by a finite
sequence of setter calls with arbitrary arguments, nil ones included, the
value under each private key has the type its getter asserts (or is nil), and
each of TypeMap, RemoteAddress, ClientParameters and ServerParameters returns
a result, never a panic. -/
theorem getters_never_raise (calls : List (Setter TM Addr)) :
    (derive Background calls).wellTyped = true
    ∧ (∃ r, TypeMap (derive Background calls) = .ok r)
    ∧ (∃ r, RemoteAddress (derive Background calls) = .ok r)
    ∧ (∃ r, ClientParameters (derive Background calls) = .ok r)
    ∧ (∃ r, ServerParameters (derive Background calls) = .ok r) := by
  have ht := fits_derive calls .typeMap (Background : Context TM Addr) rfl
  have hr := fits_derive calls .remoteAddr (Background : Context TM Addr) rfl
  have hc := fits_derive calls .clientParameters (Background : Context TM Addr) rfl
  have hs := fits_derive calls .serverParameters (Background : Context TM Addr) rfl
  refine ⟨?_, TypeMap_ok_of_fits _ ht, RemoteAddress_ok_of_fits _ hr,
    ClientParameters_ok_of_fits _ hc, ServerParameters_ok_of_fits _ hs⟩
  unfold Context.wellTyped
  simp only [Kind.key] at ht hr hc hs
  rw [ht, hr, hc, hs]
  rfl

/-! ## Keys and constants -/

/-- C13: the four private keys are pairwise distinct, and for every context,
every key whose type is not ctxKey (a plain integer, a string, a value of any
other type) and every value, attaching the value under that key with
WithValue leaves the results of TypeMap, RemoteAddress, ClientParameters and
ServerParameters unchanged. -/
theorem keys_distinct_and_unforgeable (ctx : Context TM Addr) (k : Key) (x : Any TM Addr)
    (hk : ∀ c : ctxKey, k ≠ .ofCtxKey c) :
    [ctxTypeMap, ctxClientMetadata, ctxServerMetadata, ctxRemoteAddr].Nodup
    ∧ TypeMap (WithValue ctx k x) = TypeMap ctx
    ∧ RemoteAddress (WithValue ctx k x) = RemoteAddress ctx
    ∧ ClientParameters (WithValue ctx k x) = ClientParameters ctx
    ∧ ServerParameters (WithValue ctx k x) = ServerParameters ctx := by
  refine ⟨by decide, ?_, ?_, ?_, ?_⟩
  · unfold TypeMap
    rw [Value_WithValue_other ctx k _ x (hk _)]
  · unfold RemoteAddress
    rw [Value_WithValue_other ctx k _ x (hk _)]
  · unfold ClientParameters
    rw [Value_WithValue_other ctx k _ x (hk _)]
  · unfold ServerParameters
    rw [Value_WithValue_other ctx k _ x (hk _)]

theorem keys_distinct_and_unforgeable_witness :
    (∀ c : ctxKey, Key.ofInt 1 ≠ .ofCtxKey c)
    ∧ ClientParameters (WithValue
        (setClientParameters (Background : Context Nat TCPAddr) sampleClientOld)
        (.ofInt 1) (.parameters sampleClientNew))
      = ClientParameters (setClientParameters (Background : Context Nat TCPAddr) sampleClientOld)
    ∧ ClientParameters (setClientParameters (Background : Context Nat TCPAddr) sampleClientOld)
      = .ok sampleClientOld :=
  ⟨fun _ h => Key.noConfusion h,
   (keys_distinct_and_unforgeable
      (setClientParameters (Background : Context Nat TCPAddr) sampleClientOld)
      (.ofInt 1) (.parameters sampleClientNew) (fun _ h => Key.noConfusion h)).2.2.2.1,
   rfl⟩

/-- C14: the eight recognized status constants are exactly the wire-level
tags, they are pairwise distinct, and a Parameters map filled with all eight
holds eight entries, each constant with its own value. -/
theorem recognized_constants :
    ParamServerEncoding = "server_encoding"
    ∧ ParamClientEncoding = "client_encoding"
    ∧ ParamIsSuperuser = "is_superuser"
    ∧ ParamSessionAuthorization = "session_authorization"
    ∧ ParamApplicationName = "application_name"
    ∧ ParamDatabase = "database"
    ∧ ParamUsername = "user"
    ∧ ParamServerVersion = "server_version"
    ∧ recognizedParams.Nodup
    ∧ Parameters.len allRecognized = 8
    ∧ recognizedParams.map (Parameters.lookup allRecognized) = recognizedParams.map some := by
  refine ⟨rfl, rfl, rfl, rfl, rfl, rfl, rfl, rfl, by decide, by decide, by decide⟩

/-! ## Cancellation -/

theorem signals_apply (ctx : Context TM Addr) (s : Setter TM Addr) :
    (Setter.apply ctx s).Done = ctx.Done ∧ (Setter.apply ctx s).Err = ctx.Err
    ∧ (Setter.apply ctx s).Deadline = ctx.Deadline := by
  cases s with
  | typeInfo info => exact ⟨rfl, rfl, rfl⟩
  | remoteAddress addr => exact ⟨rfl, rfl, rfl⟩
  | clientParameters params =>
    cases params with
    | none => exact ⟨rfl, rfl, rfl⟩
    | some m => exact ⟨rfl, rfl, rfl⟩
  | serverParameters params =>
    cases params with
    | none => exact ⟨rfl, rfl, rfl⟩
    | some m => exact ⟨rfl, rfl, rfl⟩

theorem signals_derive (calls : List (Setter TM Addr)) :
    ∀ ctx : Context TM Addr, (derive ctx calls).Done = ctx.Done
      ∧ (derive ctx calls).Err = ctx.Err ∧ (derive ctx calls).Deadline = ctx.Deadline := by
  induction calls with
  | nil => intro ctx; exact ⟨rfl, rfl, rfl⟩
  | cons s rest ih =>
    intro ctx
    obtain ⟨h1, h2, h3⟩ := ih (Setter.apply ctx s)
    obtain ⟨g1, g2, g3⟩ := signals_apply ctx s
    exact ⟨h1.trans g1, h2.trans g2, h3.trans g3⟩

/-- C15: for every base context and every context derived from it by a finite
sequence of setter calls, the derived context has the Done channel of the
base and reports at every instant the Err of the base (and its Deadline), so
that it is cancelled exactly when the base is. -/
theorem cancellation_propagates (base : Context TM Addr) (calls : List (Setter TM Addr)) :
    (derive base calls).Done = base.Done
    ∧ (∀ t, (derive base calls).Err t = base.Err t)
    ∧ (derive base calls).Deadline = base.Deadline := by
  obtain ⟨h1, h2, h3⟩ := signals_derive calls base
  exact ⟨h1, fun t => congrFun h2 t, h3⟩

/-! ## Nearest attachment -/

theorem derive_concat (ctx : Context TM Addr) (calls : List (Setter TM Addr))
    (s : Setter TM Addr) : derive ctx (calls ++ [s]) = Setter.apply (derive ctx calls) s := by
  simp [derive, List.foldl_append]

theorem nearestClientParameters_concat (calls : List (Setter TM Addr)) (s : Setter TM Addr) :
    nearestClientParameters (calls ++ [s])
      = match s with
        | .clientParameters (some m) => some m
        | _ => nearestClientParameters calls := by
  unfold nearestClientParameters
  rw [List.reverse_append, List.reverse_singleton, List.singleton_append, List.findSome?_cons]
  cases s with
  | typeInfo info => rfl
  | remoteAddress addr => rfl
  | clientParameters params =>
    cases params with
    | none => rfl
    | some m => rfl
  | serverParameters params => rfl

theorem nearestServerParameters_concat (calls : List (Setter TM Addr)) (s : Setter TM Addr) :
    nearestServerParameters (calls ++ [s])
      = match s with
        | .serverParameters (some m) => some m
        | _ => nearestServerParameters calls := by
  unfold nearestServerParameters
  rw [List.reverse_append, List.reverse_singleton, List.singleton_append, List.findSome?_cons]
  cases s with
  | typeInfo info => rfl
  | remoteAddress addr => rfl
  | clientParameters params => rfl
  | serverParameters params =>
    cases params with
    | none => rfl
    | some m => rfl

theorem ClientParameters_apply (ctx : Context TM Addr) (s : Setter TM Addr) :
    ClientParameters (Setter.apply ctx s)
      = match s with
        | .clientParameters (some m) => .ok (some m)
        | _ => ClientParameters ctx := by
  cases s with
  | typeInfo info => rfl
  | remoteAddress addr => rfl
  | clientParameters params =>
    cases params with
    | none => rfl
    | some m => rfl
  | serverParameters params =>
    cases params with
    | none => rfl
    | some m => rfl

theorem ServerParameters_apply (ctx : Context TM Addr) (s : Setter TM Addr) :
    ServerParameters (Setter.apply ctx s)
      = match s with
        | .serverParameters (some m) => .ok (some m)
        | _ => ServerParameters ctx := by
  cases s with
  | typeInfo info => rfl
  | remoteAddress addr => rfl
  | clientParameters params =>
    cases params with
    | none => rfl
    | some m => rfl
  | serverParameters params =>
    cases params with
    | none => rfl
    | some m => rfl

theorem ClientParameters_derive (calls : List (Setter TM Addr)) :
    ClientParameters (derive (Background : Context TM Addr) calls)
      = .ok (nearestClientParameters calls) := by
  induction calls using List.reverseRecOn with
  | nil => rfl
  | append_singleton rest s ih =>
    rw [derive_concat, ClientParameters_apply, nearestClientParameters_concat]
    cases s with
    | typeInfo info => exact ih
    | remoteAddress addr => exact ih
    | clientParameters params =>
      cases params with
      | none => exact ih
      | some m => rfl
    | serverParameters params => exact ih

theorem ServerParameters_derive (calls : List (Setter TM Addr)) :
    ServerParameters (derive (Background : Context TM Addr) calls)
      = .ok (nearestServerParameters calls) := by
  induction calls using List.reverseRecOn with
  | nil => rfl
  | append_singleton rest s ih =>
    rw [derive_concat, ServerParameters_apply, nearestServerParameters_concat]
    cases s with
    | typeInfo info => exact ih
    | remoteAddress addr => exact ih
    | clientParameters params => exact ih
    | serverParameters params =>
      cases params with
      | none => exact ih
      | some m => rfl

theorem nearestClientParameters_eq_none (calls : List (Setter TM Addr)) :
    nearestClientParameters calls = none ↔ ∀ m, Setter.clientParameters (some m) ∉ calls := by
  unfold nearestClientParameters
  rw [List.findSome?_eq_none_iff]
  constructor
  · intro h m hm
    have := h _ (List.mem_reverse.mpr hm)
    exact absurd this (by simp)
  · intro h s hs
    have hs2 : s ∈ calls := List.mem_reverse.mp hs
    cases s with
    | typeInfo info => rfl
    | remoteAddress addr => rfl
    | clientParameters params =>
      cases params with
      | none => rfl
      | some m => exact absurd hs2 (h m)
    | serverParameters params => rfl

theorem nearestServerParameters_eq_none (calls : List (Setter TM Addr)) :
    nearestServerParameters calls = none ↔ ∀ m, Setter.serverParameters (some m) ∉ calls := by
  unfold nearestServerParameters
  rw [List.findSome?_eq_none_iff]
  constructor
  · intro h m hm
    have := h _ (List.mem_reverse.mpr hm)
    exact absurd this (by simp)
  · intro h s hs
    have hs2 : s ∈ calls := List.mem_reverse.mp hs
    cases s with
    | typeInfo info => rfl
    | remoteAddress addr => rfl
    | clientParameters params => rfl
    | serverParameters params =>
      cases params with
      | none => rfl
      | some m => exact absurd hs2 (h m)

/-- C16: on the context derived from the empty base context by a finite
sequence of setter calls, ClientParameters returns the argument of the most
recent setClientParameters call whose argument was non-nil, and returns nil
exactly when the sequence has no such call; ServerParameters obeys the same
rule with respect to setServerParameters. -/
theorem nearest_attachment_wins (calls : List (Setter TM Addr)) :
    ClientParameters (derive (Background : Context TM Addr) calls)
      = .ok (nearestClientParameters calls)
    ∧ (ClientParameters (derive (Background : Context TM Addr) calls) = .ok none
        ↔ ∀ m, Setter.clientParameters (some m) ∉ calls)
    ∧ ServerParameters (derive (Background : Context TM Addr) calls)
      = .ok (nearestServerParameters calls)
    ∧ (ServerParameters (derive (Background : Context TM Addr) calls) = .ok none
        ↔ ∀ m, Setter.serverParameters (some m) ∉ calls) := by
  refine ⟨ClientParameters_derive calls, ?_, ServerParameters_derive calls, ?_⟩
  · rw [ClientParameters_derive, ← nearestClientParameters_eq_none]
    constructor
    · intro h; exact Except.ok.inj h
    · intro h; rw [h]
  · rw [ServerParameters_derive, ← nearestServerParameters_eq_none]
    constructor
    · intro h; exact Except.ok.inj h
    · intro h; rw [h]

theorem nearest_attachment_wins_witness :
    ClientParameters (derive (Background : Context Nat TCPAddr)
        [.clientParameters sampleClientOld, .serverParameters sampleServerParams,
         .clientParameters sampleClientNew, .clientParameters none, .typeInfo none])
      = .ok sampleClientNew
    ∧ ServerParameters (derive (Background : Context Nat TCPAddr)
        [.clientParameters sampleClientOld, .clientParameters none, .typeInfo none])
      = .ok none :=
  ⟨(nearest_attachment_wins
      [.clientParameters sampleClientOld, .serverParameters sampleServerParams,
       .clientParameters sampleClientNew, .clientParameters none, .typeInfo none]).1,
   (nearest_attachment_wins
      [.clientParameters sampleClientOld, .clientParameters none, .typeInfo none]).2.2.1⟩

/-! ## Nil type maps and addresses, and the order of attachments -/

/-- C17: a nil type map and a nil remote address are attached, not skipped:
for every context, setTypeInfo and setRemoteAddress with nil derive a new node
(setClientParameters and setServerParameters with nil derive none), TypeMap
and RemoteAddress then return nil, also right after a non-nil value was
attached, so a nil result does not tell that nothing was ever attached. -/
theorem nil_value_is_attached (ctx : Context TM Addr) :
    TypeMap (setTypeInfo ctx none) = .ok none
    ∧ RemoteAddress (setRemoteAddress ctx none) = .ok none
    ∧ (setTypeInfo ctx none).depth = ctx.depth + 1
    ∧ (setRemoteAddress ctx none).depth = ctx.depth + 1
    ∧ (setClientParameters ctx none).depth = ctx.depth
    ∧ (setServerParameters ctx none).depth = ctx.depth
    ∧ (∀ v : TM, TypeMap (setTypeInfo ctx (some v)) = .ok (some v)
        ∧ TypeMap (setTypeInfo (setTypeInfo ctx (some v)) none) = .ok none
        ∧ (setTypeInfo (setTypeInfo ctx (some v)) none).neverAttached (.ofCtxKey ctxTypeMap)
            = false)
    ∧ (∀ a : Addr, RemoteAddress (setRemoteAddress ctx (some a)) = .ok (some a)
        ∧ RemoteAddress (setRemoteAddress (setRemoteAddress ctx (some a)) none) = .ok none
        ∧ (setRemoteAddress (setRemoteAddress ctx (some a)) none).neverAttached
            (.ofCtxKey ctxRemoteAddr) = false) :=
  ⟨rfl, rfl, rfl, rfl, rfl, rfl, fun _ => ⟨rfl, rfl, rfl⟩, fun _ => ⟨rfl, rfl, rfl⟩⟩

theorem Value_apply_congr (c d : Context TM Addr) (s : Setter TM Addr) (j : Key)
    (h : c.Value j = d.Value j) : (Setter.apply c s).Value j = (Setter.apply d s).Value j := by
  cases s with
  | typeInfo info =>
    simp only [Setter.apply, setTypeInfo, WithValue, Context.Value, h]
  | remoteAddress addr =>
    simp only [Setter.apply, setRemoteAddress, WithValue, Context.Value, h]
  | clientParameters params =>
    cases params with
    | none => exact h
    | some m =>
      have hn : (some m : Parameters) ≠ none := by simp
      simp only [Setter.apply, setClientParameters, if_neg hn, WithValue, Context.Value, h]
  | serverParameters params =>
    cases params with
    | none => exact h
    | some m =>
      have hn : (some m : Parameters) ≠ none := by simp
      simp only [Setter.apply, setServerParameters, if_neg hn, WithValue, Context.Value, h]

theorem Value_apply_comm (ctx : Context TM Addr) (s1 s2 : Setter TM Addr)
    (h : s1.kind ≠ s2.kind) (j : Kind) :
    (Setter.apply (Setter.apply ctx s1) s2).Value (.ofCtxKey j.key)
      = (Setter.apply (Setter.apply ctx s2) s1).Value (.ofCtxKey j.key) := by
  by_cases h2 : s2.kind = j
  · have h1 : s1.kind ≠ j := fun e => h (e.trans h2.symm)
    rw [Value_apply_other (Setter.apply ctx s2) s1 j h1]
    exact Value_apply_congr _ _ s2 _ (Value_apply_other ctx s1 j h1)
  · rw [Value_apply_other (Setter.apply ctx s1) s2 j h2]
    exact (Value_apply_congr _ _ s1 _ (Value_apply_other ctx s2 j h2)).symm

/-- C18: for every context and any two setter calls of different kinds, with
arbitrary arguments, applying them in either order gives contexts on which
TypeMap, RemoteAddress, ClientParameters and ServerParameters return the same
results. -/
theorem different_kinds_commute (ctx : Context TM Addr) (s1 s2 : Setter TM Addr)
    (h : s1.kind ≠ s2.kind) :
    TypeMap (Setter.apply (Setter.apply ctx s1) s2)
      = TypeMap (Setter.apply (Setter.apply ctx s2) s1)
    ∧ RemoteAddress (Setter.apply (Setter.apply ctx s1) s2)
      = RemoteAddress (Setter.apply (Setter.apply ctx s2) s1)
    ∧ ClientParameters (Setter.apply (Setter.apply ctx s1) s2)
      = ClientParameters (Setter.apply (Setter.apply ctx s2) s1)
    ∧ ServerParameters (Setter.apply (Setter.apply ctx s1) s2)
      = ServerParameters (Setter.apply (Setter.apply ctx s2) s1) := by
  have ht := Value_apply_comm ctx s1 s2 h .typeMap
  have hr := Value_apply_comm ctx s1 s2 h .remoteAddr
  have hc := Value_apply_comm ctx s1 s2 h .clientParameters
  have hs := Value_apply_comm ctx s1 s2 h .serverParameters
  simp only [Kind.key] at ht hr hc hs
  refine ⟨?_, ?_, ?_, ?_⟩
  · unfold TypeMap
    rw [ht]
  · unfold RemoteAddress
    rw [hr]
  · unfold ClientParameters
    rw [hc]
  · unfold ServerParameters
    rw [hs]

theorem different_kinds_commute_witness :
    (Setter.typeInfo (some 1) : Setter Nat TCPAddr).kind
        ≠ (Setter.clientParameters sampleClientOld : Setter Nat TCPAddr).kind
    ∧ ClientParameters (Setter.apply (Setter.apply (Background : Context Nat TCPAddr)
          (.typeInfo (some 1))) (.clientParameters sampleClientOld))
      = ClientParameters (Setter.apply (Setter.apply (Background : Context Nat TCPAddr)
          (.clientParameters sampleClientOld)) (.typeInfo (some 1)))
    ∧ ClientParameters (Setter.apply (Setter.apply (Background : Context Nat TCPAddr)
          (.clientParameters sampleClientOld)) (.typeInfo (some 1)))
      = .ok sampleClientOld :=
  ⟨by decide,
   (different_kinds_commute (Background : Context Nat TCPAddr) (.typeInfo (some 1))
      (.clientParameters sampleClientOld) (by decide)).2.2.1,
   rfl⟩

end Wire
